import Mathlib

/-!
Verification of the sliding-window thread chunker in `src/gchat.py`
(`GoogleChatDirectoryLoader`).  The Python functions `datetime_to_epoch`,
`get_space_name`, `process_spaces` and `process_dms` are shallowly embedded
as executable Lean definitions; the claims about them are then proved or
refuted below.
-/

/-! ## Data model

A chat message as consumed by the chunker.  In the Python source a message
is a JSON object read with `.get(field, default)`, so every field may be
absent; absent fields are `none` here.  The `creator` field is itself an
object with an optional `name`. -/

structure Creator where
  name : Option String
  deriving DecidableEq

structure Message where
  creator : Option Creator
  text : Option String
  created_date : Option String
  message_id : Option String
  deriving DecidableEq

def defaultMsg : Message := ⟨none, none, none, none⟩

/-- One entry of the membership roster, the list under the key
membership_info of the user-info file: `group_id` is always read by direct
indexing; `group_name` is read guardedly (present in the item and not None),
so it is optional. -/
structure RosterEntry where
  group_id : String
  group_name : Option String
  deriving DecidableEq

/-! ## Date parsing (`datetime_to_epoch`)

`datetime_to_epoch` removes every occurrence of the literal substring
`"UTC"`, strips surrounding whitespace, and parses the remainder with
`strptime` using the format `"%A, %B %d, %Y at %I:%M:%S %p"` (the `%Z`
directive having been removed from the format string).  The parse is
modelled below following CPython's `_strptime`: names match
case-insensitively, whitespace in the format matches one or more whitespace
characters, numeric fields accept one or two digits within the documented
ranges, the year takes exactly four digits, and any unconverted trailing
data is an error.  A successful parse is then validated the way the
`datetime` constructor does (year at least 1, day within the month,
second at most 59) and converted to a unix epoch with the time read as
UTC. -/

def removeUTC : List Char → List Char
  | 'U' :: 'T' :: 'C' :: rest => removeUTC rest
  | c :: rest => c :: removeUTC rest
  | [] => []

def isWs (c : Char) : Bool :=
  c = ' ' || c = '\t' || c = '\n' || c = '\r' || c = '\x0b' || c = '\x0c'

def dropWs : List Char → List Char
  | c :: cs => if isWs c then dropWs cs else c :: cs
  | [] => []

def trimChars (l : List Char) : List Char :=
  (dropWs (dropWs l).reverse).reverse

/-- Consume one or more whitespace characters (the `\s+` a run of
whitespace in a `strptime` format compiles to). -/
def eatWs1 : List Char → Option (List Char)
  | c :: cs => if isWs c then some (dropWs cs) else none
  | [] => none

/-- Consume one exact character. -/
def eatCh (ch : Char) : List Char → Option (List Char)
  | c :: cs => if c = ch then some cs else none
  | [] => none

/-- Consume a literal word, case-insensitively (strptime compiles its
pattern with IGNORECASE). -/
def eatCI : List Char → List Char → Option (List Char)
  | [], s => some s
  | _ :: _, [] => none
  | p :: ps, c :: cs => if p.toLower = c.toLower then eatCI ps cs else none

/-- Try each alternative word in turn, returning its associated value. -/
def eatAlt (table : List (List Char × Nat)) (s : List Char) :
    Option (Nat × List Char) :=
  match table with
  | [] => none
  | (w, v) :: rest =>
      match eatCI w s with
      | some r => some (v, r)
      | none => eatAlt rest s

def weekdayTable : List (List Char × Nat) :=
  [("Monday".toList, 0), ("Tuesday".toList, 1), ("Wednesday".toList, 2),
   ("Thursday".toList, 3), ("Friday".toList, 4), ("Saturday".toList, 5),
   ("Sunday".toList, 6)]

def monthTable : List (List Char × Nat) :=
  [("January".toList, 1), ("February".toList, 2), ("March".toList, 3),
   ("April".toList, 4), ("May".toList, 5), ("June".toList, 6),
   ("July".toList, 7), ("August".toList, 8), ("September".toList, 9),
   ("October".toList, 10), ("November".toList, 11), ("December".toList, 12)]

def ampmTable : List (List Char × Nat) :=
  [("AM".toList, 0), ("PM".toList, 1)]

def digit? (c : Char) : Option Nat :=
  if c.isDigit then some (c.toNat - 48) else none

/-- Consume a one- or two-digit number.  `twoOK` decides whether the
two-digit reading is admitted by the field's pattern, `oneOK` likewise for
the one-digit reading; the two-digit reading is preferred, as in the
compiled regular expressions of `_strptime`. -/
def eatNum2 (twoOK oneOK : Nat → Bool) (s : List Char) :
    Option (Nat × List Char) :=
  match s with
  | [] => none
  | c1 :: rest1 =>
      match digit? c1 with
      | none => none
      | some d1 =>
          match rest1 with
          | c2 :: rest2 =>
              match digit? c2 with
              | some d2 =>
                  if twoOK (10 * d1 + d2) then some (10 * d1 + d2, rest2)
                  else if oneOK d1 then some (d1, rest1) else none
              | none => if oneOK d1 then some (d1, rest1) else none
          | [] => if oneOK d1 then some (d1, rest1) else none

/-- Consume exactly four digits (the `%Y` directive). -/
def eatYear4 (s : List Char) : Option (Nat × List Char) :=
  match s with
  | a :: b :: c :: d :: rest =>
      match digit? a, digit? b, digit? c, digit? d with
      | some x, some y, some z, some w => some (x * 1000 + y * 100 + z * 10 + w, rest)
      | _, _, _, _ => none
  | _ => none

/-- Parse the date half `"%A, %B %d, %Y "` of the format, returning
`(year, month, day, rest)` with `rest` starting after the whitespace that
follows the year. -/
def parseDatePart (s : List Char) : Option (Nat × Nat × Nat × List Char) :=
  match eatAlt weekdayTable s with
  | none => none
  | some (_, r1) =>
  match eatCh ',' r1 with
  | none => none
  | some r2 =>
  match eatWs1 r2 with
  | none => none
  | some r3 =>
  match eatAlt monthTable r3 with
  | none => none
  | some (mo, r4) =>
  match eatWs1 r4 with
  | none => none
  | some r5 =>
  match eatNum2 (fun v => decide (1 ≤ v ∧ v ≤ 31)) (fun v => decide (1 ≤ v)) r5 with
  | none => none
  | some (dy, r6) =>
  match eatCh ',' r6 with
  | none => none
  | some r7 =>
  match eatWs1 r7 with
  | none => none
  | some r8 =>
  match eatYear4 r8 with
  | none => none
  | some (yr, r9) =>
  match eatWs1 r9 with
  | none => none
  | some r10 => some (yr, mo, dy, r10)

/-- Parse the time half `"at %I:%M:%S %p"` of the format (matched against
the whole remaining input), returning `(hour24, minute, second)`. -/
def parseTimePart (s : List Char) : Option (Nat × Nat × Nat) :=
  match eatCI "at".toList s with
  | none => none
  | some r1 =>
  match eatWs1 r1 with
  | none => none
  | some r2 =>
  match eatNum2 (fun v => decide (1 ≤ v ∧ v ≤ 12)) (fun v => decide (1 ≤ v)) r2 with
  | none => none
  | some (hr, r3) =>
  match eatCh ':' r3 with
  | none => none
  | some r4 =>
  match eatNum2 (fun v => decide (v ≤ 59)) (fun _ => true) r4 with
  | none => none
  | some (mi, r5) =>
  match eatCh ':' r5 with
  | none => none
  | some r6 =>
  match eatNum2 (fun v => decide (v ≤ 61)) (fun _ => true) r6 with
  | none => none
  | some (se, r7) =>
  match eatWs1 r7 with
  | none => none
  | some r8 =>
  match eatAlt ampmTable r8 with
  | none => none
  | some (pm, r9) =>
  if r9.isEmpty then
    some ((if pm = 1 then (if hr = 12 then 12 else hr + 12)
           else (if hr = 12 then 0 else hr)), mi, se)
  else none

/-- Parse `"%A, %B %d, %Y at %I:%M:%S %p"` against the whole input,
returning `(year, month, day, hour24, minute, second)`. -/
def parseFmt (s : List Char) : Option (Nat × Nat × Nat × Nat × Nat × Nat) :=
  match parseDatePart s with
  | none => none
  | some (yr, mo, dy, r) =>
  match parseTimePart r with
  | none => none
  | some (h24, mi, se) => some (yr, mo, dy, h24, mi, se)

def isLeap (y : Nat) : Bool :=
  (y % 4 == 0 && y % 100 != 0) || y % 400 == 0

def daysInMonth (y m : Nat) : Nat :=
  if m = 2 then (if isLeap y then 29 else 28)
  else if m = 4 ∨ m = 6 ∨ m = 9 ∨ m = 11 then 30
  else 31

/-- Days from 1970-01-01 to the given proleptic-Gregorian civil date
(standard days-from-civil computation; `y ≥ 1`, `1 ≤ m ≤ 12`). -/
def daysFromCivil (y m d : Nat) : Int :=
  let y' := if m ≤ 2 then y - 1 else y
  let era := y' / 400
  let yoe := y' % 400
  let mp := if m > 2 then m - 3 else m + 9
  let doy := (153 * mp + 2) / 5 + (d - 1)
  let doe := yoe * 365 + yoe / 4 - yoe / 100 + doy
  ((era * 146097 + doe : Nat) : Int) - 719468

/-- Parse (no timezone directive) and convert to a unix epoch, with the
wall-clock time interpreted as UTC; `none` on parse failure or on a value
the `datetime` constructor would reject. -/
def parseEpochChars (s : List Char) : Option Int :=
  match parseFmt s with
  | none => none
  | some (yr, mo, dy, h24, mi, se) =>
      if 1 ≤ yr ∧ dy ≤ daysInMonth yr mo ∧ se ≤ 59 then
        some (daysFromCivil yr mo dy * 86400 + ((h24 * 3600 + mi * 60 + se : Nat) : Int))
      else none

/-- `GoogleChatDirectoryLoader.datetime_to_epoch`. -/
def datetime_to_epoch (s : String) : Option Int :=
  if s = "Unknown Date" then none
  else parseEpochChars (trimChars (removeUTC s.toList))

/-! ## Roster lookup (`get_space_name`) -/

/-- Substring containment, as the Python membership test `group_id_part in item_group_id`. -/
def containsSub (needle hay : List Char) : Bool :=
  needle.isPrefixOf hay ||
    (match hay with
     | [] => false
     | _ :: t => containsSub needle t)

/-- The part of a message id before the first slash: element 0 of
`message_id.split` on the slash separator. -/
def groupIdPart (message_id : String) : String :=
  (message_id.splitOn "/").headD ""

/-- The linear search of `get_space_name`: return the `group_name` of the
first roster entry whose `group_id` contains the group-id part and which
has a non-null `group_name`; entries without a usable name are skipped
(`continue`), and the search falls through to `"Unknown Space"`. -/
def lookupName (p : String) : List RosterEntry → String
  | [] => "Unknown Space"
  | item :: rest =>
      if containsSub p.toList item.group_id.toList then
        match item.group_name with
        | some nm => nm
        | none => lookupName p rest
      else lookupName p rest

/-- `GoogleChatDirectoryLoader.get_space_name`, with the roster file
already decoded into its list of membership entries. -/
def get_space_name (roster : List RosterEntry) (message_id : String) : String :=
  lookupName (groupIdPart message_id) roster

/-- The space name as computed at the top of `process_spaces`:
`get_space_name` on the first message id (defaulting to the empty string)
when the message list is non-empty, and the Unknown Space sentinel
otherwise. -/
def spaceNameOf (roster : List RosterEntry) (msgs : List Message) : String :=
  match msgs with
  | [] => "Unknown Space"
  | m :: _ => get_space_name roster (m.message_id.getD "")

/-! ## The sliding-window chunker -/

/-- `range(start, stop, 19)` of Python, via structural recursion on a fuel
argument (`stop` is always enough fuel). -/
def pyRange19Aux : Nat → Nat → Nat → List Nat
  | 0, _, _ => []
  | fuel + 1, s, stop => if s < stop then s :: pyRange19Aux fuel (s + 19) stop else []

def pyRange19 (s stop : Nat) : List Nat := pyRange19Aux stop s stop

/-- Creator name with fallback: get the creator object (defaulting to an
empty object), then its name (defaulting to the Unknown sentinel). -/
def msgName (m : Message) : String :=
  ((m.creator.getD ⟨none⟩).name).getD "Unknown"

/-- One formatted block of a window: the creator name, a newline, the
message text, and two newlines. -/
def msgBlock (m : Message) : String :=
  msgName m ++ "\n" ++ (m.text.getD "No text available") ++ "\n\n"

/-- The document text built by the inner loop
`for j in range(max(0, i-10), min(len(messages), i+11))`:
the blocks of the messages at indices `max 0 (i-10), ..., min (len) (i+11) - 1`,
joined. -/
def windowText (msgs : List Message) (i : Nat) : String :=
  String.join (((msgs.take (min msgs.length (i + 11))).drop (max 0 (i - 10))).map msgBlock)

/-- Metadata of a space document. -/
structure SpaceMeta where
  source : String
  type : String
  name : String
  message_id : String
  date : String
  unix_time : Option Int
  url : String
  deriving DecidableEq

structure SpaceDoc where
  metadata : SpaceMeta
  text : String
  deriving DecidableEq

/-- Metadata of a DM document (its `name` field is the list of unique
creator names). -/
structure DmMeta where
  source : String
  type : String
  name : List String
  message_id : String
  date : String
  unix_time : Option Int
  url : String
  deriving DecidableEq

structure DmDoc where
  metadata : DmMeta
  text : String
  deriving DecidableEq

/-- The document `process_spaces` appends for the window centred at `i`. -/
def mkSpaceDoc (space_name : String) (msgs : List Message) (i : Nat) : SpaceDoc :=
  let middlemessage := msgs.getD i defaultMsg
  let startmessage := msgs.getD (i - 10) defaultMsg
  { metadata :=
      { source := "chats"
        type := "space"
        name := space_name
        message_id := startmessage.message_id.getD "Unknown ID"
        date := middlemessage.created_date.getD "Unknown Date"
        unix_time := datetime_to_epoch (middlemessage.created_date.getD "Unknown Date")
        url := "https://chat.google.com/room/" ++ startmessage.message_id.getD "" }
    text := windowText msgs i }

/-- The document `process_dms` appends for the window centred at `i`. -/
def mkDmDoc (unique_names : List String) (msgs : List Message) (i : Nat) : DmDoc :=
  let middlemessage := msgs.getD i defaultMsg
  let startmessage := msgs.getD (i - 10) defaultMsg
  { metadata :=
      { source := "chats"
        type := "dm"
        name := unique_names
        message_id := startmessage.message_id.getD "Unknown ID"
        date := middlemessage.created_date.getD "Unknown Date"
        unix_time := datetime_to_epoch (middlemessage.created_date.getD "Unknown Date")
        url := "https://chat.google.com/dm/" ++ startmessage.message_id.getD "" }
    text := windowText msgs i }

/-- `GoogleChatDirectoryLoader.process_spaces`, with the two JSON files
already decoded into the message list and the roster. -/
def process_spaces (roster : List RosterEntry) (msgs : List Message) : List SpaceDoc :=
  (pyRange19 10 msgs.length).map (mkSpaceDoc (spaceNameOf roster msgs) msgs)

/-- The deduplicating accumulation loop of `process_dms`: collect each
creator name the first time it is seen. -/
def uniqueNames (msgs : List Message) : List String :=
  msgs.foldl (fun acc m => if msgName m ∈ acc then acc else acc ++ [msgName m]) []

/-- `GoogleChatDirectoryLoader.process_dms`, with the JSON file already
decoded into the message list. -/
def process_dms (msgs : List Message) : List DmDoc :=
  (pyRange19 10 msgs.length).map (mkDmDoc (uniqueNames msgs) msgs)

/-! ## Spec-side definitions used to state the claims -/

/-- The window text as the specification words it: the blocks of exactly
the messages at indices `max 0 (i-10)` through `min (length-1) (i+10)`
inclusive, concatenated in sequence order. -/
def windowTextSpec (msgs : List Message) (i : Nat) : String :=
  String.join
    (((msgs.drop (max 0 (i - 10))).take
        (min (msgs.length - 1) (i + 10) + 1 - max 0 (i - 10))).map msgBlock)

/-- First-seen deduplication: keep each string's first occurrence, delete
the later ones. -/
def dedupFS : List String → List String
  | [] => []
  | x :: xs => x :: dedupFS (xs.filter (fun y => decide (y ≠ x)))
termination_by l => l.length
decreasing_by
  simp only [List.length_cons]
  exact Nat.lt_succ_of_le (List.length_filter_le _ xs)

/-- The accumulation step of the `unique_names` loop in `process_dms`. -/
def dedupStep (acc : List String) (n : String) : List String :=
  if n ∈ acc then acc else acc ++ [n]

/-- The four-message sequence whose creators are `A`, `B`, `A`, `C`. -/
def msgsABAC : List Message :=
  [⟨some ⟨some "A"⟩, none, none, none⟩, ⟨some ⟨some "B"⟩, none, none, none⟩,
   ⟨some ⟨some "A"⟩, none, none, none⟩, ⟨some ⟨some "C"⟩, none, none, none⟩]

/-- The eleven-message sequence with every field absent. -/
def msgs11 : List Message := List.replicate 11 defaultMsg

example : datetime_to_epoch "Monday, January 1, 2024 at 09:30:00 AM UTC" = some 1704101400 := by decide
example : datetime_to_epoch "Unknown Date" = none := by decide
example : datetime_to_epoch "garbage" = none := by decide
example : datetime_to_epoch "Monday, January 1, 2024 at 09:30:00 AM PST" = none := by decide
example : pyRange19 10 49 = [10, 29, 48] := by decide
example : pyRange19 10 10 = [] := by decide
example :
    uniqueNames [⟨some ⟨some "A"⟩, none, none, none⟩, ⟨some ⟨some "B"⟩, none, none, none⟩,
      ⟨some ⟨some "A"⟩, none, none, none⟩, ⟨some ⟨some "C"⟩, none, none, none⟩]
      = ["A", "B", "C"] := by decide
set_option maxRecDepth 4000 in
example :
    (process_dms (List.replicate 11 defaultMsg)).map (fun d => d.text)
      = [String.join (List.replicate 11 "Unknown\nNo text available\n\n")] := by decide

/-! ## Helper lemmas -/

theorem pyRange19Aux_length (fuel : Nat) : ∀ s stop : Nat,
    (stop - s + 18) / 19 ≤ fuel →
    (pyRange19Aux fuel s stop).length = (stop - s + 18) / 19 := by
  induction fuel with
  | zero => intro s stop h; simp only [pyRange19Aux, List.length_nil]; omega
  | succ n ih =>
      intro s stop h
      rw [pyRange19Aux]
      split
      · rename_i hlt
        rw [List.length_cons, ih (s + 19) stop (by omega)]
        omega
      · rename_i hge
        simp only [List.length_nil]
        omega

theorem pyRange19_length (s stop : Nat) :
    (pyRange19 s stop).length = (stop - s + 18) / 19 :=
  pyRange19Aux_length stop s stop (by omega)

theorem pyRange19Aux_mem (fuel : Nat) : ∀ s stop i : Nat,
    i ∈ pyRange19Aux fuel s stop → s ≤ i ∧ i < stop := by
  induction fuel with
  | zero => intro s stop i h; simp [pyRange19Aux] at h
  | succ n ih =>
      intro s stop i h
      rw [pyRange19Aux] at h
      split at h
      · rename_i hlt
        rcases List.mem_cons.mp h with h1 | h2
        · omega
        · have := ih (s + 19) stop i h2; omega
      · simp at h

theorem pyRange19_mem {s stop i : Nat} (h : i ∈ pyRange19 s stop) :
    s ≤ i ∧ i < stop :=
  pyRange19Aux_mem stop s stop i h

/-- The half-open index range of the code's inner loop and the inclusive
index range of the specification produce the same window. -/
theorem windowText_eq_spec (msgs : List Message) (i : Nat) (h : i < msgs.length) :
    windowText msgs i = windowTextSpec msgs i := by
  have hdt : (msgs.take (min msgs.length (i + 11))).drop (max 0 (i - 10))
      = (msgs.drop (max 0 (i - 10))).take
          (min (msgs.length - 1) (i + 10) + 1 - max 0 (i - 10)) := by
    rw [List.drop_take]
    congr 1
    omega
  rw [windowText, windowTextSpec, hdt]

/-! ## Claim theorems -/

/-- Claim C1: for every message sequence and every window center produced by
the chunker, the document text equals the concatenation, over exactly the
messages at indices `max 0 (i-10)` through `min (length-1) (i+10)` inclusive
in sequence order, of the block `creator_name ++ "\n" ++ text ++ "\n\n"` with
the fallbacks `"Unknown"` and `"No text available"` — for both variants. -/
theorem c1_window_text (roster : List RosterEntry) (msgs : List Message) :
    (process_spaces roster msgs).map SpaceDoc.text
        = (pyRange19 10 msgs.length).map (windowTextSpec msgs)
    ∧ (process_dms msgs).map DmDoc.text
        = (pyRange19 10 msgs.length).map (windowTextSpec msgs) := by
  have key : ∀ i ∈ pyRange19 10 msgs.length, windowText msgs i = windowTextSpec msgs i :=
    fun i hi => windowText_eq_spec msgs i (pyRange19_mem hi).2
  constructor
  · simp only [process_spaces, List.map_map]
    exact List.map_congr_left key
  · simp only [process_dms, List.map_map]
    exact List.map_congr_left key

/-- Claim C2: both chunker variants return no documents when the sequence
has at most 10 messages, and exactly `(length - 11) / 19 + 1` documents
otherwise. -/
theorem c2_document_count (roster : List RosterEntry) (msgs : List Message) :
    (process_spaces roster msgs).length
        = (if msgs.length ≤ 10 then 0 else (msgs.length - 11) / 19 + 1)
    ∧ (process_dms msgs).length
        = (if msgs.length ≤ 10 then 0 else (msgs.length - 11) / 19 + 1) := by
  constructor <;>
  · simp only [process_spaces, process_dms, List.length_map, pyRange19_length]
    split <;> omega

/-- Claim C3: each document's `date` and `unix_time` metadata come from the
`created_date` of the anchor-mid message (index `i`) and its `message_id`
metadata from the anchor-start message (index `i-10`), with the sentinels
`"Unknown Date"` / `"Unknown ID"` when the fields are absent — for both
variants. -/
theorem c3_metadata_anchors (roster : List RosterEntry) (msgs : List Message) :
    (process_spaces roster msgs).map
        (fun d => (d.metadata.date, d.metadata.unix_time, d.metadata.message_id))
      = (pyRange19 10 msgs.length).map (fun i =>
          (((msgs.getD i defaultMsg).created_date).getD "Unknown Date",
           datetime_to_epoch (((msgs.getD i defaultMsg).created_date).getD "Unknown Date"),
           ((msgs.getD (i - 10) defaultMsg).message_id).getD "Unknown ID"))
    ∧ (process_dms msgs).map
        (fun d => (d.metadata.date, d.metadata.unix_time, d.metadata.message_id))
      = (pyRange19 10 msgs.length).map (fun i =>
          (((msgs.getD i defaultMsg).created_date).getD "Unknown Date",
           datetime_to_epoch (((msgs.getD i defaultMsg).created_date).getD "Unknown Date"),
           ((msgs.getD (i - 10) defaultMsg).message_id).getD "Unknown ID")) := by
  constructor
  · simp only [process_spaces, List.map_map]; rfl
  · simp only [process_dms, List.map_map]; rfl

/-- The linear search of `lookupName` is a first-match-wins search: it
returns the `group_name` of the first entry that matches (contains the
group-id part in its `group_id` and carries a non-null name), and
`"Unknown Space"` when no entry matches. -/
theorem lookupName_eq_find (p : String) (roster : List RosterEntry) :
    lookupName p roster
      = (match roster.find? (fun e =>
            containsSub p.toList e.group_id.toList && e.group_name.isSome) with
         | some e => e.group_name.getD "Unknown Space"
         | none => "Unknown Space") := by
  induction roster with
  | nil => rfl
  | cons item rest ih =>
      simp only [lookupName]
      cases hgn : item.group_name <;> cases hc : containsSub p.toList item.group_id.toList
      · rw [if_neg (by simp [hc]), ih,
          List.find?_cons_of_neg _
            (by simp [show containsSub p.data item.group_id.data = false from hc])]
      · rw [if_pos (by simp [hc])]
        simp only [hgn]
        rw [ih, List.find?_cons_of_neg _ (by simp [hc, hgn])]
      · rw [if_neg (by simp [hc]), ih,
          List.find?_cons_of_neg _
            (by simp [show containsSub p.data item.group_id.data = false from hc])]
      · rw [if_pos (by simp [hc])]
        simp only [hgn]
        rw [List.find?_cons_of_pos _
          (by simp [hgn, show containsSub p.data item.group_id.data = true from hc])]
        simp [hgn]

/-- Claim C5: the space-name variant resolves the name by a linear,
first-matching-entry-wins search over the roster keyed on the part of the
first message's `message_id` before the first `/` (an entry matches when
its `group_id` contains that part and it carries a non-null `group_name`),
falling back to `"Unknown Space"` on no match or an empty sequence; every
emitted document carries that name. -/
theorem c5_space_name_lookup (roster : List RosterEntry) (msgs : List Message) :
    (spaceNameOf roster msgs
      = (match msgs with
         | [] => "Unknown Space"
         | m :: _ =>
             match roster.find? (fun e =>
                 containsSub (groupIdPart (m.message_id.getD "")).toList e.group_id.toList
                   && e.group_name.isSome) with
             | some e => e.group_name.getD "Unknown Space"
             | none => "Unknown Space"))
    ∧ (process_spaces roster msgs).map (fun d => d.metadata.name)
        = (pyRange19 10 msgs.length).map (fun _ => spaceNameOf roster msgs) := by
  constructor
  · cases msgs with
    | nil => rfl
    | cons m rest =>
        simp only [spaceNameOf, get_space_name]
        exact lookupName_eq_find _ _
  · simp only [process_spaces, List.map_map]
    rfl

/-- Claim C6: the three concrete conversions of the specification's test
properties. -/
theorem c6_concrete_dates :
    datetime_to_epoch "Monday, January 1, 2024 at 09:30:00 AM UTC" = some 1704101400
    ∧ datetime_to_epoch "Unknown Date" = none
    ∧ datetime_to_epoch "garbage" = none :=
  ⟨by decide, by decide, by decide⟩

/-- Claim C4 counterexample: the conversion does not treat an arbitrary
timezone token as UTC — with token `"PST"` in place of `"UTC"` the same
wall-clock time yields `none` (a parse failure), not the same timestamp. -/
theorem c4_counterexample_pst :
    ¬ (datetime_to_epoch "Monday, January 1, 2024 at 09:30:00 AM PST"
        = datetime_to_epoch "Monday, January 1, 2024 at 09:30:00 AM UTC") := by
  decide

/-- Claim C4 (amended): the conversion deletes every occurrence of the
literal token `"UTC"`, trims whitespace, and parses the remainder in the
fixed format as a UTC wall-clock time; it returns null on the sentinel
`"Unknown Date"` and on any parse failure — in particular a date string
bearing a timezone token other than `"UTC"` fails to parse and yields null
rather than the same timestamp. -/
theorem c4_amended_utc_only (s : String) (h : s ≠ "Unknown Date") :
    datetime_to_epoch s = parseEpochChars (trimChars (removeUTC s.toList))
    ∧ datetime_to_epoch "Unknown Date" = none
    ∧ datetime_to_epoch "Monday, January 1, 2024 at 09:30:00 AM PST" = none
    ∧ datetime_to_epoch "Monday, January 1, 2024 at 09:30:00 AM UTC" = some 1704101400 := by
  refine ⟨?_, by decide, by decide, by decide⟩
  rw [datetime_to_epoch, if_neg h]

theorem c4_amended_utc_only_witness :
    datetime_to_epoch "garbage" = parseEpochChars (trimChars (removeUTC "garbage".toList))
    ∧ datetime_to_epoch "Unknown Date" = none
    ∧ datetime_to_epoch "Monday, January 1, 2024 at 09:30:00 AM PST" = none
    ∧ datetime_to_epoch "Monday, January 1, 2024 at 09:30:00 AM UTC" = some 1704101400 :=
  c4_amended_utc_only "garbage" (by decide)

/-- Claim C10: on any message sequence the space variant and the DM variant
produce the same number of documents with pairwise equal texts; they differ
only in the metadata they attach. -/
theorem c10_variants_agree (roster : List RosterEntry) (msgs : List Message) :
    (process_spaces roster msgs).length = (process_dms msgs).length
    ∧ (process_spaces roster msgs).map SpaceDoc.text
        = (process_dms msgs).map DmDoc.text := by
  constructor
  · simp [process_spaces, process_dms]
  · simp only [process_spaces, process_dms, List.map_map]
    rfl

/-- Everything `dedupFS` keeps comes from its input. -/
theorem dedupFS_subset (l : List String) : ∀ a ∈ dedupFS l, a ∈ l := by
  match l with
  | [] =>
      intro a ha
      rw [dedupFS] at ha
      exact absurd ha (List.not_mem_nil a)
  | x :: xs =>
      intro a ha
      rw [dedupFS] at ha
      rcases List.mem_cons.mp ha with h1 | h2
      · exact h1 ▸ List.mem_cons_self x xs
      · exact List.mem_cons_of_mem x
          (List.mem_of_mem_filter (dedupFS_subset (xs.filter (fun y => decide (y ≠ x))) a h2))
termination_by l.length
decreasing_by
  simp only [List.length_cons]
  exact Nat.lt_succ_of_le (List.length_filter_le _ xs)

/-- `dedupFS` never keeps a duplicate. -/
theorem dedupFS_nodup (l : List String) : (dedupFS l).Nodup := by
  match l with
  | [] => rw [dedupFS]; exact List.nodup_nil
  | x :: xs =>
      rw [dedupFS]
      refine List.nodup_cons.mpr ⟨?_, dedupFS_nodup (xs.filter (fun y => decide (y ≠ x)))⟩
      intro hx
      have hmem := dedupFS_subset _ x hx
      have := (List.mem_filter.mp hmem).2
      simp at this
termination_by l.length
decreasing_by
  simp only [List.length_cons]
  exact Nat.lt_succ_of_le (List.length_filter_le _ xs)

/-- The append-if-new fold computes, beyond any accumulator, the first-seen
deduplication of the part of the input not already accumulated. -/
theorem foldl_dedupStep (l : List String) : ∀ acc : List String,
    l.foldl dedupStep acc = acc ++ dedupFS (l.filter (fun y => decide (y ∉ acc))) := by
  induction l with
  | nil => intro acc; rw [List.foldl_nil, List.filter_nil, dedupFS]; simp
  | cons x xs ih =>
      intro acc
      rw [List.foldl_cons]
      by_cases hx : x ∈ acc
      · rw [show dedupStep acc x = acc from if_pos hx, ih acc, List.filter_cons]
        simp [hx]
      · rw [show dedupStep acc x = acc ++ [x] from if_neg hx, ih (acc ++ [x]),
          List.filter_cons]
        rw [if_pos (by simp [hx])]
        have hfil : List.filter (fun y => decide (y ∉ acc ++ [x])) xs
            = List.filter (fun a => decide (a ≠ x) && decide (a ∉ acc)) xs := by
          apply List.filter_congr
          intro a _
          by_cases hax : a = x <;> by_cases haacc : a ∈ acc <;> simp [hax, haacc]
        rw [dedupFS, List.filter_filter, hfil, List.append_assoc, List.singleton_append]

/-- The `unique_names` loop of `process_dms` computes the first-seen
deduplication of the sequence's creator names. -/
theorem uniqueNames_eq_dedupFS (msgs : List Message) :
    uniqueNames msgs = dedupFS (msgs.map msgName) := by
  have h1 : uniqueNames msgs = (msgs.map msgName).foldl dedupStep [] := by
    rw [List.foldl_map]
    rfl
  rw [h1, foldl_dedupStep]
  simp

/-- Claim C7: every document emitted by the DM variant carries, as its
`name` metadata, the first-seen deduplicated list of the creator names of
the whole sequence (hence the same list for every document); for creators
`A, B, A, C` that list is `["A", "B", "C"]`. -/
theorem c7_unique_names :
    (∀ msgs : List Message,
        (process_dms msgs).map (fun d => d.metadata.name)
            = (pyRange19 10 msgs.length).map (fun _ => uniqueNames msgs)
        ∧ uniqueNames msgs = dedupFS (msgs.map msgName)
        ∧ (uniqueNames msgs).Nodup)
    ∧ uniqueNames msgsABAC = ["A", "B", "C"] := by
  refine ⟨fun msgs => ⟨?_, uniqueNames_eq_dedupFS msgs, ?_⟩, by decide⟩
  · simp only [process_dms, List.map_map]
    rfl
  · rw [uniqueNames_eq_dedupFS]
    exact dedupFS_nodup _

/-- Claim C8: the chunker never fails: modelled as total functions, both
variants return the empty document list on any sequence of at most 10
messages (in particular empty and single-message input), and every emitted
document's `unix_time` is the (total, `Option`-valued) conversion of its
`date` metadata, so a malformed date degrades to `none` rather than an
error. -/
theorem c8_total_degradation (roster : List RosterEntry) (msgs : List Message) :
    (msgs.length ≤ 10 → process_spaces roster msgs = [] ∧ process_dms msgs = [])
    ∧ (process_spaces roster msgs).map (fun d => d.metadata.unix_time)
        = (process_spaces roster msgs).map (fun d => datetime_to_epoch d.metadata.date)
    ∧ (process_dms msgs).map (fun d => d.metadata.unix_time)
        = (process_dms msgs).map (fun d => datetime_to_epoch d.metadata.date) := by
  refine ⟨fun h => ?_, ?_, ?_⟩
  · have hlen := pyRange19_length 10 msgs.length
    have hnil : pyRange19 10 msgs.length = [] :=
      List.length_eq_zero.mp (by rw [hlen]; omega)
    constructor <;> simp [process_spaces, process_dms, hnil]
  · simp only [process_spaces, List.map_map]
    rfl
  · simp only [process_dms, List.map_map]
    rfl

theorem c8_total_degradation_witness :
    process_spaces [] [defaultMsg] = [] ∧ process_dms [defaultMsg] = [] :=
  (c8_total_degradation [] [defaultMsg]).1 (by decide)

/-- Claim C9: when a window's anchor-start message has no `message_id`, the
emitted document uses two different defaults for it: the `message_id`
metadata is the sentinel `"Unknown ID"` while the `url` metadata is built
with the empty string, giving exactly the bare room/dm base URL. -/
theorem c9_inconsistent_defaults (roster : List RosterEntry) (msgs : List Message)
    (i : Nat) (hi : i ∈ pyRange19 10 msgs.length)
    (hmid : (msgs.getD (i - 10) defaultMsg).message_id = none) :
    ((mkSpaceDoc (spaceNameOf roster msgs) msgs i).metadata.message_id = "Unknown ID"
      ∧ (mkSpaceDoc (spaceNameOf roster msgs) msgs i).metadata.url
          = "https://chat.google.com/room/"
      ∧ mkSpaceDoc (spaceNameOf roster msgs) msgs i ∈ process_spaces roster msgs)
    ∧ ((mkDmDoc (uniqueNames msgs) msgs i).metadata.message_id = "Unknown ID"
      ∧ (mkDmDoc (uniqueNames msgs) msgs i).metadata.url = "https://chat.google.com/dm/"
      ∧ mkDmDoc (uniqueNames msgs) msgs i ∈ process_dms msgs) := by
  have hmid2 : (msgs[i - 10]?.getD defaultMsg).message_id = none := by
    simpa [List.getD] using hmid
  refine ⟨⟨?_, ?_, ?_⟩, ⟨?_, ?_, ?_⟩⟩
  · simp [mkSpaceDoc, hmid2]
  · simp [mkSpaceDoc, hmid2, String.append_empty]
  · exact List.mem_map_of_mem _ hi
  · simp [mkDmDoc, hmid2]
  · simp [mkDmDoc, hmid2, String.append_empty]
  · exact List.mem_map_of_mem _ hi

theorem c9_inconsistent_defaults_witness :
    ((mkSpaceDoc (spaceNameOf [] msgs11) msgs11 10).metadata.message_id = "Unknown ID"
      ∧ (mkSpaceDoc (spaceNameOf [] msgs11) msgs11 10).metadata.url
          = "https://chat.google.com/room/"
      ∧ mkSpaceDoc (spaceNameOf [] msgs11) msgs11 10 ∈ process_spaces [] msgs11)
    ∧ ((mkDmDoc (uniqueNames msgs11) msgs11 10).metadata.message_id = "Unknown ID"
      ∧ (mkDmDoc (uniqueNames msgs11) msgs11 10).metadata.url = "https://chat.google.com/dm/"
      ∧ mkDmDoc (uniqueNames msgs11) msgs11 10 ∈ process_dms msgs11) :=
  c9_inconsistent_defaults [] msgs11 10 (by decide) (by decide)
